import Mathlib

/-!
Verification development for the sports-betting engine (Autonord-shop).

The Python sources are shallowly embedded here:

* `src/strategy.py` (`BettingEngine`) is modelled over `ℚ`: implied
  probability, expected value, Kelly staking, the per-candidate admission
  pipeline of `analyse`, the doubles pairing of `pair_doubles`, and the
  bankroll backtest of `simulate_bankroll`.  Python `round(x, n)` is
  modelled exactly (round half to even).
* `src/model.py` (`QuantModel`) is modelled over `ℝ`: the Poisson grid of
  `predict_totals`, the league-average baseline `_poisson_baseline`, the
  forward pass of `predict_proba` and the fold structure of `evaluate`
  (sklearn `TimeSeriesSplit` with its default test size).  The fitted
  sklearn/xgboost estimators themselves are external library state; they
  appear as abstract function parameters, while every piece of control
  flow, data flow and arithmetic written in the repository is embedded.
-/

namespace Autonord

/-- Python's built-in banker's rounding of a rational to an integer:
round to the nearest integer, ties go to the even integer. -/
def roundHalfEven (q : ℚ) : ℤ :=
  let f := Rat.floor q
  let frac := q - (f : ℚ)
  if frac < 1/2 then f
  else if 1/2 < frac then f + 1
  else if f % 2 = 0 then f else f + 1

/-- Python `round(x, n)`: round to `n` decimal places, ties to even. -/
def roundTo (n : ℕ) (q : ℚ) : ℚ :=
  ((roundHalfEven (q * 10 ^ n) : ℚ)) / 10 ^ n

/-- Which side of the Over/Under 2.5 market a candidate bet is on
(the `bet_on` field, `"over25"` or `"under25"` in the source). -/
inductive BetSide
  | over25
  | under25
deriving DecidableEq, Repr, Inhabited

/-- Configuration scalars of `BettingEngine.__init__` (strategy.py lines
141-160), with the YAML defaults used by `cfg.get`. -/
structure StrategyConfig where
  fractionalKelly : ℚ := 1/4
  minEvThreshold : ℚ := 1/20
  minProbThreshold : ℚ := 4/5
  minOdds : ℚ := 7/4
  maxStakePct : ℚ := 3/100
  initialBankroll : ℚ := 1000
  stopLossConsecutive : ℕ := 5
  disagreementSkip : ℚ := 1/5
  pairingEnabled : Bool := true
  preferCrossLeague : Bool := true
deriving Repr

/-- The default configuration (all YAML fallback values). -/
def defaultConfig : StrategyConfig := {}

/-- `BettingEngine.implied_probability` (strategy.py lines 173-187):
`1/odds` for odds above 1, else `1.0`. -/
def implied_probability (decimalOdds : ℚ) : ℚ :=
  if decimalOdds ≤ 1 then 1 else 1 / decimalOdds

/-- `BettingEngine.expected_value` (strategy.py lines 189-201):
`p * (odds - 1) - (1 - p)`. -/
def expected_value (modelProb decimalOdds : ℚ) : ℚ :=
  modelProb * (decimalOdds - 1) - (1 - modelProb)

/-- `BettingEngine.kelly_stake` (strategy.py lines 203-225): full Kelly
fraction `(b p - q) / b` with `b = odds - 1`, returning 0 when `b ≤ 0`
and never below 0. -/
def kelly_stake (modelProb decimalOdds : ℚ) : ℚ :=
  let b := decimalOdds - 1
  if b ≤ 0 then 0
  else max ((b * modelProb - (1 - modelProb)) / b) 0

/-- `BettingEngine.closing_line_value` (strategy.py lines 273-289). -/
def closing_line_value (modelProb closingImplied : ℚ) : ℚ :=
  modelProb - closingImplied

/-- `BettingEngine._check_filtro_a` (strategy.py lines 231-238):
model probability at or above the configured minimum. -/
def checkFiltroA (cfg : StrategyConfig) (modelProb : ℚ) : Bool :=
  cfg.minProbThreshold ≤ modelProb

/-- `BettingEngine._check_filtro_b` (strategy.py lines 240-256): the steam
signal must not oppose the candidate outcome. -/
def checkFiltroB (steamSignal : ℤ) (betOn : BetSide) : Bool :=
  if betOn = BetSide.over25 ∧ steamSignal = -1 then false
  else if betOn = BetSide.under25 ∧ steamSignal = 1 then false
  else true

/-- `BettingEngine._check_disagreement` (strategy.py lines 258-267):
pass when `|model_prob - implied_prob|` is within the configured cap. -/
def checkDisagreement (cfg : StrategyConfig) (modelProb impliedProb : ℚ) : Bool :=
  |modelProb - impliedProb| ≤ cfg.disagreementSkip

/-- One (match, outcome) candidate as seen by the loop body of
`BettingEngine.analyse` (strategy.py lines 346-371).  Odds fields are
`none` when the column is missing or the value is NaN for that row
(both make `np.isnan(row.get(col, np.nan))` succeed). -/
structure Candidate where
  matchIndex : ℤ
  modelProb : ℚ
  steamSignal : ℤ
  betOn : BetSide
  closeOdds : Option ℚ
  openOdds : Option ℚ
  league : String
deriving DecidableEq, Repr, Inhabited

/-- Odds selection of `analyse` (strategy.py lines 355-361): use closing
odds when usable, otherwise fall back to opening odds, otherwise none. -/
def selectedOdds (c : Candidate) : Option ℚ :=
  match c.closeOdds with
  | some o => some o
  | none => c.openOdds

/-- `BetRecommendation` (strategy.py lines 49-106), restricted to the
numeric and identifying fields (team/date strings are carried through
unchanged by the engine and are omitted). -/
structure BetRecommendation where
  matchIndex : ℤ
  betOn : BetSide
  modelProb : ℚ
  impliedProbOpen : ℚ
  impliedProbClose : ℚ
  edge : ℚ
  ev : ℚ
  kellyFraction : ℚ
  recommendedStake : ℚ
  marketOdds : ℚ
  clv : ℚ
  steamSignal : ℤ
  passesFiltroA : Bool
  passesFiltroB : Bool
  league : String
deriving DecidableEq, Repr, Inhabited

/-- Result of the `analyse` loop body for one candidate: skipped at the
odds-selection stage (`continue` before any filtro check), rejected by a
Doppio Filtro check (`continue` later), or admitted with a built
recommendation. -/
inductive CandidateResult
  | skippedOdds
  | rejected
  | admitted (rec : BetRecommendation)
deriving DecidableEq, Repr

/-- The `BetRecommendation` `analyse` constructs for an admitted
candidate (strategy.py lines 403-422), including the source's
`round(.., 4)` formatting of the stored fields. -/
def admittedRec (cfg : StrategyConfig) (c : Candidate) (marketOdds : ℚ) :
    BetRecommendation :=
  let impOpen := implied_probability (c.openOdds.getD marketOdds)
  let impClose := implied_probability marketOdds
  let ev := expected_value c.modelProb marketOdds
  let fullKelly := kelly_stake c.modelProb marketOdds
  let stake := min (fullKelly * cfg.fractionalKelly) cfg.maxStakePct
  { matchIndex := c.matchIndex
    betOn := c.betOn
    modelProb := roundTo 4 c.modelProb
    impliedProbOpen := roundTo 4 impOpen
    impliedProbClose := roundTo 4 impClose
    edge := roundTo 4 (c.modelProb - impClose)
    ev := roundTo 4 ev
    kellyFraction := roundTo 4 fullKelly
    recommendedStake := roundTo 4 stake
    marketOdds := marketOdds
    clv := roundTo 4 (closing_line_value c.modelProb impClose)
    steamSignal := c.steamSignal
    passesFiltroA := checkFiltroA cfg c.modelProb
    passesFiltroB := checkFiltroB c.steamSignal c.betOn
    league := c.league }

/-- The admission pipeline of `BettingEngine.analyse` for one candidate
(strategy.py lines 351-423), mirroring the source's control flow: odds
selection and the `market_odds <= 1` skip, then `passes_a` and `passes_b`
computed together and tested jointly, then the odds floor, the
disagreement check, and the EV floor, finally the construction of the
`BetRecommendation`. -/
def processCandidate (cfg : StrategyConfig) (c : Candidate) : CandidateResult :=
  match selectedOdds c with
  | none => CandidateResult.skippedOdds
  | some marketOdds =>
    if marketOdds ≤ 1 then CandidateResult.skippedOdds
    else
      let impClose := implied_probability marketOdds
      let passesA := checkFiltroA cfg c.modelProb
      let passesB := checkFiltroB c.steamSignal c.betOn
      if ¬passesA ∨ ¬passesB then CandidateResult.rejected
      else if marketOdds < cfg.minOdds then CandidateResult.rejected
      else if ¬checkDisagreement cfg c.modelProb impClose then CandidateResult.rejected
      else if expected_value c.modelProb marketOdds < cfg.minEvThreshold then
        CandidateResult.rejected
      else CandidateResult.admitted (admittedRec cfg c marketOdds)

/-- Whether check number `n` (in the spec's order: 1 probability floor,
2 signal alignment, 3 odds floor, 4 disagreement cap, 5 EV floor) passes
for a candidate whose selected market odds are `o`. -/
def checkPasses (cfg : StrategyConfig) (c : Candidate) (o : ℚ) : ℕ → Bool
  | 1 => checkFiltroA cfg c.modelProb
  | 2 => checkFiltroB c.steamSignal c.betOn
  | 3 => !decide (o < cfg.minOdds)
  | 4 => checkDisagreement cfg c.modelProb (implied_probability o)
  | 5 => !decide (expected_value c.modelProb o < cfg.minEvThreshold)
  | _ => true

/-- The first failing check in the spec's order 1..5, or `none` when all
pass (or when the candidate never reaches the checks because its odds are
unusable). -/
def firstFailingCheck (cfg : StrategyConfig) (c : Candidate) : Option ℕ :=
  match selectedOdds c with
  | none => none
  | some o =>
    if o ≤ 1 then none
    else [1, 2, 3, 4, 5].find? (fun n => !checkPasses cfg c o n)

/-- The list of checks the `analyse` loop body actually evaluates for a
candidate, following the source's control flow (strategy.py lines
372-394): `passes_a` and `passes_b` are both computed before the joint
rejection test, and each later check is reached only when all earlier
tests passed. -/
def evaluatedChecks (cfg : StrategyConfig) (c : Candidate) : List ℕ :=
  match selectedOdds c with
  | none => []
  | some o =>
    if o ≤ 1 then []
    else
      [1, 2] ++
        (if checkPasses cfg c o 1 ∧ checkPasses cfg c o 2 then
          3 :: (if checkPasses cfg c o 3 then
            4 :: (if checkPasses cfg c o 4 then [5] else [])
          else [])
        else [])

/-- `DoubleBet` (strategy.py lines 109-122). -/
structure DoubleBet where
  leg1 : BetRecommendation
  leg2 : BetRecommendation
  combinedProb : ℚ
  combinedOdds : ℚ
  recommendedStake : ℚ
deriving DecidableEq, Repr, Inhabited

/-- Construction of one double (strategy.py lines 477-490): combined
probability and odds are products of the legs', Kelly is applied to the
combination, and the stored fields carry the source's rounding. -/
def mkDouble (cfg : StrategyConfig) (best worst : BetRecommendation) : DoubleBet :=
  let combinedProb := best.modelProb * worst.modelProb
  let combinedOdds := best.marketOdds * worst.marketOdds
  let fullKelly := kelly_stake combinedProb combinedOdds
  let stake := min (fullKelly * cfg.fractionalKelly) cfg.maxStakePct
  { leg1 := best
    leg2 := worst
    combinedProb := roundTo 4 combinedProb
    combinedOdds := roundTo 2 combinedOdds
    recommendedStake := roundTo 4 stake }

/-- The backwards scan of strategy.py lines 468-472: find the entry the
loop `for i in range(len(recs)-1, -1, -1)` selects, i.e. the LAST list
element whose league differs from `lg`, returning it together with the
list with that element removed. -/
def extractLastOtherLeague (lg : String) : List BetRecommendation →
    Option (BetRecommendation × List BetRecommendation)
  | [] => none
  | x :: xs =>
    match extractLastOtherLeague lg xs with
    | some (w, rest) => some (w, x :: rest)
    | none => if x.league ≠ lg then some (x, xs) else none

/-- Split off the last element of a list (`sorted_recs.pop(-1)`):
returns the remaining entries in order together with the popped last. -/
def splitLast : List BetRecommendation →
    Option (List BetRecommendation × BetRecommendation)
  | [] => none
  | [x] => some ([], x)
  | x :: y :: xs =>
    match splitLast (y :: xs) with
    | some (ys, w) => some (x :: ys, w)
    | none => none

/-- One pass of the `while len(sorted_recs) >= 2` loop of `pair_doubles`
(strategy.py lines 460-490), driven by a fuel argument (each iteration
removes at least two entries, so fuel = list length suffices).  Note the
source's behaviour faithfully: when a cross-league partner is found, the
originally popped `worst` is overwritten and never returned to the pool. -/
def pairLoop (cfg : StrategyConfig) : ℕ → List BetRecommendation → List DoubleBet
  | 0, _ => []
  | _ + 1, [] => []
  | fuel + 1, best :: rest =>
    match splitLast rest with
    | none => []
    | some (remaining0, worst0) =>
      if cfg.preferCrossLeague ∧ best.league = worst0.league then
        match extractLastOtherLeague best.league remaining0 with
        | some (worst, remaining) =>
          mkDouble cfg best worst :: pairLoop cfg fuel remaining
        | none =>
          mkDouble cfg best worst0 :: pairLoop cfg fuel remaining0
      else
        mkDouble cfg best worst0 :: pairLoop cfg fuel remaining0

/-- `BettingEngine.pair_doubles` (strategy.py lines 439-493): return `[]`
when pairing is disabled or fewer than two singles exist; otherwise sort
by model probability descending (Python's stable sort) and run the
pairing loop. -/
def pair_doubles (cfg : StrategyConfig) (recs : List BetRecommendation) :
    List DoubleBet :=
  if ¬cfg.pairingEnabled ∨ recs.length < 2 then []
  else
    let sortedRecs :=
      List.insertionSort (fun a b : BetRecommendation => b.modelProb ≤ a.modelProb) recs
    pairLoop cfg sortedRecs.length sortedRecs

/-- One row of the bankroll ledger (`history.append` in strategy.py lines
585-597); `wager`, `profit` and `bankroll` carry the source's
`round(.., 2)`. -/
structure LedgerEntry where
  matchIndex : ℤ
  betOn : BetSide
  odds : ℚ
  stakePct : ℚ
  wager : ℚ
  won : Bool
  profit : ℚ
  bankroll : ℚ
deriving DecidableEq, Repr, Inhabited

/-- Mutable state of `simulate_bankroll`: running bankroll, the
consecutive-loss counter and the ledger built so far. -/
structure SimState where
  bankroll : ℚ
  consecutiveLosses : ℕ
  ledger : List LedgerEntry
deriving DecidableEq, Repr, Inhabited

/-- Settlement of one bet (strategy.py lines 567-597): unresolved bets
(`actuals.get` returns `None`) are skipped wholesale; otherwise the wager
is a fraction of the CURRENT bankroll, profit is `wager * (odds - 1)` on
a win and `-wager` on a loss, the loss counter resets on a win and
increments on a loss, and one ledger entry is appended. -/
def simStep (actuals : ℤ → Option ℕ) (st : SimState) (rec : BetRecommendation) :
    SimState :=
  match actuals rec.matchIndex with
  | none => st
  | some actualOver =>
    let betWon := (rec.betOn = BetSide.over25 ∧ actualOver = 1) ∨
      (rec.betOn = BetSide.under25 ∧ actualOver = 0)
    let wager := st.bankroll * rec.recommendedStake
    let profit := if betWon then wager * (rec.marketOdds - 1) else -wager
    let newBankroll := st.bankroll + profit
    { bankroll := newBankroll
      consecutiveLosses := if betWon then 0 else st.consecutiveLosses + 1
      ledger := st.ledger ++
        [{ matchIndex := rec.matchIndex
           betOn := rec.betOn
           odds := rec.marketOdds
           stakePct := rec.recommendedStake
           wager := roundTo 2 wager
           won := decide betWon
           profit := roundTo 2 profit
           bankroll := roundTo 2 newBankroll }] }

/-- The `for rec in recs` loop of `simulate_bankroll` (strategy.py lines
558-597): before settling each bet the stop-loss is tested and, once the
consecutive-loss counter has reached the threshold, the loop `break`s and
no later bet is processed. -/
def simRun (cfg : StrategyConfig) (actuals : ℤ → Option ℕ) :
    SimState → List BetRecommendation → SimState
  | st, [] => st
  | st, rec :: rest =>
    if cfg.stopLossConsecutive ≤ st.consecutiveLosses then st
    else simRun cfg actuals (simStep actuals st rec) rest

/-- `BettingEngine.simulate_bankroll` (strategy.py lines 527-599). -/
def simulate_bankroll (cfg : StrategyConfig) (recs : List BetRecommendation)
    (actuals : ℤ → Option ℕ) : SimState :=
  simRun cfg actuals
    { bankroll := cfg.initialBankroll, consecutiveLosses := 0, ledger := [] } recs

/-! ### model.py (`QuantModel`), over `ℝ` -/

/-- Poisson probability mass `exp(-lam) * lam^k / k!` (the value of
`scipy.stats.poisson.pmf(k, lam)` for nonnegative `lam`). -/
noncomputable def poissonPmf (lam : ℝ) (k : ℕ) : ℝ :=
  Real.exp (-lam) * lam ^ k / (Nat.factorial k : ℝ)

/-- The explicit under-mass grid sum of `QuantModel.predict_totals`
(model.py lines 156-161): the joint mass of all count pairs `(i, j)` in
`{0..max_g} × {0..max_g}` with `i + j ≤ line`. -/
noncomputable def probUnderGrid (line : ℝ) (maxG : ℕ) (lamH lamA : ℝ) : ℝ :=
  ∑ i ∈ Finset.range (maxG + 1), ∑ j ∈ Finset.range (maxG + 1),
    if ((i : ℝ) + (j : ℝ)) ≤ line then poissonPmf lamH i * poissonPmf lamA j else 0

/-- The per-match body of `QuantModel.predict_totals` (model.py lines
148-163): both rates floored at 0.01, then `1 - prob_under`. -/
noncomputable def predict_totals1 (line : ℝ) (maxG : ℕ) (homeXg awayXg : ℝ) : ℝ :=
  1 - probUnderGrid line maxG (max homeXg (1/100)) (max awayXg (1/100))

/-- `QuantModel.predict_totals` on a batch: the Python loop is
elementwise over the paired xG arrays. -/
noncomputable def predict_totals (line : ℝ) (maxG : ℕ) (xg : List (ℝ × ℝ)) : List ℝ :=
  xg.map (fun p => predict_totals1 line maxG p.1 p.2)

/-- One row of the feature-engineered match table consumed by
`QuantModel`.  `features` is the row restricted to the resolved feature
columns; the remaining fields are the named columns the model reads. -/
structure MatchRow where
  features : List ℝ
  totalXg : ℚ
  marketMomentumOver : ℝ
  steamSignal : ℝ
  homeGoals : ℝ
  awayGoals : ℝ
  over25 : Bool
deriving Inhabited

/-- The match table (a pandas DataFrame in the source).  `hasTotalXg` and
`hasMarket` model the column-existence probes `"total_xg" in df.columns`
and `"market_momentum_over" in df.columns`. -/
structure MatchTable where
  rows : List MatchRow
  hasTotalXg : Bool
  hasMarket : Bool
deriving Inhabited

/-- The fitted estimators held by a `QuantModel` after `fit`.  The
estimators themselves are sklearn/xgboost library objects, external to
this repository; they are abstracted as plain functions (predictors) and
importance vectors. -/
structure FittedParams where
  homeModel : List ℝ → ℝ
  awayModel : List ℝ → ℝ
  metaModel : List ℝ → ℝ
  calibrator : ℝ → ℝ
  homeImportances : List ℝ
  awayImportances : List ℝ
deriving Inhabited

/-- `QuantModel` state (model.py lines 79-102): configuration scalars
with their YAML defaults, the `_is_fitted` flag, and the fitted
parameters. -/
structure QuantModel where
  ouLine : ℝ := 5/2
  poissonMax : ℕ := 10
  tsSplits : ℕ := 5
  isFitted : Bool := false
  params : FittedParams
  featureCols : List String := []

/-- Errors surfaced by `QuantModel` methods: the distinct RuntimeError
"Model not fitted" guard, and data-shape errors raised by the sklearn
machinery (too few samples for the splits, single-class folds). -/
inductive ModelError
  | notFitted
  | dataError
deriving DecidableEq, Repr

/-- The league-average lambda of `QuantModel._poisson_baseline` (model.py
line 178): `df["total_xg"].mean() / 2` when the column exists, else the
fallback 1.3. -/
def baselineAvg (t : MatchTable) : ℚ :=
  if t.hasTotalXg then ((t.rows.map MatchRow.totalXg).sum / (t.rows.length : ℚ)) / 2
  else 13/10

/-- `QuantModel._poisson_baseline` (model.py lines 167-181): the same
league-average lambda for both sides of every row, fed through the
Poisson grid. -/
noncomputable def poisson_baseline (m : QuantModel) (t : MatchTable) : List ℝ :=
  t.rows.map (fun _ =>
    predict_totals1 m.ouLine m.poissonMax ((baselineAvg t : ℚ) : ℝ) ((baselineAvg t : ℚ) : ℝ))

/-- `np.clip(x, 0.01, 0.99)`. -/
noncomputable def clip01 (x : ℝ) : ℝ := min (max x (1/100)) (99/100)

/-- One meta-learner feature row (model.py lines 264-270):
`[prob_xg, prob_poisson]` extended with the market columns when present. -/
noncomputable def metaFeatureRow (t : MatchTable) (probXg probPoi : ℝ) (r : MatchRow) :
    List ℝ :=
  [probXg, probPoi] ++ (if t.hasMarket then [r.marketMomentumOver, r.steamSignal] else [])

/-- One output row of `predict_proba` (model.py lines 327-336). -/
structure ProbaRow where
  probOver25 : ℝ
  probUnder25 : ℝ
  predHomeXg : ℝ
  predAwayXg : ℝ
  predTotalXg : ℝ
deriving Inhabited

/-- The forward pass of `QuantModel.predict_proba` after the fit guard
(model.py lines 305-336): level-1 predictions, Poisson conversion, the
league baseline, the meta features, the calibrator, and the final clip
into `[0.01, 0.99]` with `prob_under25 = 1 - prob_over25`. -/
noncomputable def predictProbaRows (m : QuantModel) (t : MatchTable) : List ProbaRow :=
  t.rows.map (fun r =>
    let ph := m.params.homeModel r.features
    let pa := m.params.awayModel r.features
    let probXg := predict_totals1 m.ouLine m.poissonMax ph pa
    let probPoi := predict_totals1 m.ouLine m.poissonMax
      ((baselineAvg t : ℚ) : ℝ) ((baselineAvg t : ℚ) : ℝ)
    let raw := m.params.metaModel (metaFeatureRow t probXg probPoi r)
    let calibrated := clip01 (m.params.calibrator raw)
    { probOver25 := calibrated
      probUnder25 := 1 - calibrated
      predHomeXg := ph
      predAwayXg := pa
      predTotalXg := ph + pa })

/-- `QuantModel.predict_proba` (model.py lines 289-336): raises the
distinct "Model not fitted" RuntimeError before doing anything else. -/
noncomputable def predict_proba (m : QuantModel) (t : MatchTable) :
    Except ModelError (List ProbaRow) :=
  if m.isFitted then Except.ok (predictProbaRows m t)
  else Except.error ModelError.notFitted

/-- `QuantModel.get_feature_importance` (model.py lines 445-464): guarded
by the same fit check; returns features paired with the averaged
importances of the two level-1 regressors (the source additionally sorts
this table descending by importance for presentation). -/
noncomputable def get_feature_importance (m : QuantModel) :
    Except ModelError (List (String × ℝ)) :=
  if m.isFitted then
    Except.ok (m.featureCols.zip
      ((m.params.homeImportances.zip m.params.awayImportances).map
        (fun p => (p.1 + p.2) / 2)))
  else Except.error ModelError.notFitted

/-- sklearn `TimeSeriesSplit` default test size: `n // (n_splits + 1)`. -/
def foldTestSize (n nsplits : ℕ) : ℕ := n / (nsplits + 1)

/-- First test index of fold `i` under sklearn `TimeSeriesSplit`:
`n - (n_splits - i) * test_size`. -/
def foldTestStart (n nsplits i : ℕ) : ℕ := n - (nsplits - i) * foldTestSize n nsplits

/-- Training indices of fold `i`: the strict prefix `[0, test_start)`. -/
def foldTrainIdx (n nsplits i : ℕ) : List ℕ := List.range (foldTestStart n nsplits i)

/-- Test indices of fold `i`: `[test_start, test_start + test_size)`. -/
def foldTestIdx (n nsplits i : ℕ) : List ℕ :=
  (List.range (foldTestSize n nsplits)).map (fun j => foldTestStart n nsplits i + j)

/-- `df.iloc[idx]`: the sub-table at the given row positions. -/
def tableSlice (t : MatchTable) (idx : List ℕ) : MatchTable :=
  { rows := idx.map (fun i => t.rows.getD i default)
    hasTotalXg := t.hasTotalXg
    hasMarket := t.hasMarket }

/-- `df.iloc[train_idx]` for fold `i` of `evaluate`. -/
def trainFoldTable (m : QuantModel) (t : MatchTable) (i : ℕ) : MatchTable :=
  tableSlice t (foldTrainIdx t.rows.length m.tsSplits i)

/-- `df.iloc[test_idx]` for fold `i` of `evaluate`. -/
def testFoldTable (m : QuantModel) (t : MatchTable) (i : ℕ) : MatchTable :=
  tableSlice t (foldTestIdx t.rows.length m.tsSplits i)

/-- The training-row Model C baseline computed by `evaluate` for fold `i`
(model.py line 389): `self._poisson_baseline(df.iloc[train_idx])`. -/
noncomputable def evalTrainBaseline (m : QuantModel) (t : MatchTable) (i : ℕ) : List ℝ :=
  poisson_baseline m (trainFoldTable m t i)

/-- The test-row Model C baseline computed by `evaluate` for fold `i`
(model.py line 400): `self._poisson_baseline(df.iloc[test_idx])`. -/
noncomputable def evalTestBaseline (m : QuantModel) (t : MatchTable) (i : ℕ) : List ℝ :=
  poisson_baseline m (testFoldTable m t i)

/-- The abstract fit procedures `evaluate` invokes afresh in every fold:
`XGBRegressor(**params).fit`, `LogisticRegression(..).fit` and
`IsotonicRegression(..).fit` are sklearn/xgboost library calls, external
to this repository, abstracted as functions from training data to a
predictor. -/
structure Learners where
  regFit : List (List ℝ) → List ℝ → (List ℝ → ℝ)
  logitFit : List (List ℝ) → List Bool → (List ℝ → ℝ)
  isoFit : List ℝ → List Bool → (ℝ → ℝ)
deriving Inhabited

/-- `sklearn.metrics.brier_score_loss`: mean squared difference between
predicted probability and the 0/1 outcome. -/
noncomputable def brierScore (preds : List ℝ) (labels : List Bool) : ℝ :=
  (((preds.zip labels).map
    (fun pl => (pl.1 - (if pl.2 then 1 else 0)) ^ 2)).sum) / (labels.length : ℝ)

/-- `sklearn.metrics.log_loss`: negative mean log-likelihood of the 0/1
outcome under the predicted probability. -/
noncomputable def logLossScore (preds : List ℝ) (labels : List Bool) : ℝ :=
  -((((preds.zip labels).map
    (fun pl => if pl.2 then Real.log pl.1 else Real.log (1 - pl.1))).sum)
      / (labels.length : ℝ))

/-- The body of one cross-validation fold of `QuantModel.evaluate`
(model.py lines 376-423): refit both level-1 regressors on the fold's
training prefix, build train and test meta features (the Model C
baselines come from `evalTrainBaseline` and `evalTestBaseline`), refit
the meta-learner and the calibrator on the training rows, clip the
calibrated test probabilities, and score Brier and log loss. -/
noncomputable def foldMetrics (L : Learners) (m : QuantModel) (t : MatchTable) (i : ℕ) :
    ℝ × ℝ :=
  let ttr := trainFoldTable m t i
  let tte := testFoldTable m t i
  let hm := L.regFit (ttr.rows.map MatchRow.features) (ttr.rows.map MatchRow.homeGoals)
  let am := L.regFit (ttr.rows.map MatchRow.features) (ttr.rows.map MatchRow.awayGoals)
  let trProbXg := ttr.rows.map
    (fun r => predict_totals1 m.ouLine m.poissonMax (hm r.features) (am r.features))
  let trProbPoi := evalTrainBaseline m t i
  let trMeta := ((trProbXg.zip trProbPoi).zip ttr.rows).map
    (fun x => metaFeatureRow t x.1.1 x.1.2 x.2)
  let teProbXg := tte.rows.map
    (fun r => predict_totals1 m.ouLine m.poissonMax (hm r.features) (am r.features))
  let teProbPoi := evalTestBaseline m t i
  let teMeta := ((teProbXg.zip teProbPoi).zip tte.rows).map
    (fun x => metaFeatureRow t x.1.1 x.1.2 x.2)
  let mm := L.logitFit trMeta (ttr.rows.map MatchRow.over25)
  let rawTr := trMeta.map mm
  let rawTe := teMeta.map mm
  let iso := L.isoFit rawTr (ttr.rows.map MatchRow.over25)
  let calTe := rawTe.map (fun x => clip01 (iso x))
  (brierScore calTe (tte.rows.map MatchRow.over25),
    logLossScore calTe (tte.rows.map MatchRow.over25))

/-- A label list with only one class present (sklearn refuses to fit a
classifier on it, and `log_loss` refuses to score it). -/
def singleClass (labels : List Bool) : Bool :=
  labels.all (fun b => b) || labels.all (fun b => !b)

/-- Fold `i` is degenerate when its training or test labels carry a
single class: on such data the sklearn calls inside the fold raise. -/
def degenerateFold (m : QuantModel) (t : MatchTable) (i : ℕ) : Bool :=
  singleClass ((trainFoldTable m t i).rows.map MatchRow.over25) ||
  singleClass ((testFoldTable m t i).rows.map MatchRow.over25)

/-- Whether a model-method call returned a value rather than raising. -/
def succeeded {α : Type} (r : Except ModelError α) : Bool :=
  match r with
  | Except.ok _ => true
  | Except.error _ => false

/-- `QuantModel.evaluate` (model.py lines 342-439): run the
`TimeSeriesSplit` folds and average Brier score and log loss.  The body
performs NO `_is_fitted` check: it refits every stage from scratch in
each fold, so it runs identically on a fresh, never-fitted model.  The
error cases model the `ValueError`s the sklearn machinery raises on
too-few samples or single-class folds; no path raises the "Model not
fitted" RuntimeError. -/
noncomputable def evaluate (L : Learners) (m : QuantModel) (t : MatchTable) :
    Except ModelError (ℝ × ℝ) :=
  if t.rows.length < m.tsSplits + 1 then Except.error ModelError.dataError
  else if (List.range m.tsSplits).any (fun i => degenerateFold m t i) then
    Except.error ModelError.dataError
  else
    let folds := (List.range m.tsSplits).map (fun i => foldMetrics L m t i)
    Except.ok ((folds.map Prod.fst).sum / (m.tsSplits : ℝ),
      (folds.map Prod.snd).sum / (m.tsSplits : ℝ))

/-! ### Helper lemmas -/

theorem poissonPmf_nonneg {lam : ℝ} (hlam : 0 ≤ lam) (k : ℕ) : 0 ≤ poissonPmf lam k := by
  unfold poissonPmf
  have h1 : (0 : ℝ) < Real.exp (-lam) := Real.exp_pos _
  have h2 : (0 : ℝ) ≤ lam ^ k := pow_nonneg hlam k
  have h3 : (0 : ℝ) < (Nat.factorial k : ℝ) := by
    exact_mod_cast Nat.factorial_pos k
  positivity

theorem sum_poissonPmf_le_one {lam : ℝ} (hlam : 0 ≤ lam) (n : ℕ) :
    ∑ k ∈ Finset.range n, poissonPmf lam k ≤ 1 := by
  have hrw : ∀ k, poissonPmf lam k = Real.exp (-lam) * (lam ^ k / (Nat.factorial k : ℝ)) := by
    intro k
    unfold poissonPmf
    ring
  calc ∑ k ∈ Finset.range n, poissonPmf lam k
      = Real.exp (-lam) * ∑ k ∈ Finset.range n, lam ^ k / (Nat.factorial k : ℝ) := by
        rw [Finset.mul_sum]
        exact Finset.sum_congr rfl (fun k _ => hrw k)
    _ ≤ Real.exp (-lam) * Real.exp lam := by
        refine mul_le_mul_of_nonneg_left ?_ (le_of_lt (Real.exp_pos _))
        exact Real.sum_le_exp_of_nonneg hlam n
    _ = 1 := by
        rw [← Real.exp_add, neg_add_cancel, Real.exp_zero]

theorem probUnderGrid_nonneg {line : ℝ} {maxG : ℕ} {lamH lamA : ℝ}
    (hH : 0 ≤ lamH) (hA : 0 ≤ lamA) : 0 ≤ probUnderGrid line maxG lamH lamA := by
  unfold probUnderGrid
  refine Finset.sum_nonneg (fun i _ => Finset.sum_nonneg (fun j _ => ?_))
  split
  · exact mul_nonneg (poissonPmf_nonneg hH i) (poissonPmf_nonneg hA j)
  · exact le_refl 0

theorem probUnderGrid_le_one {line : ℝ} {maxG : ℕ} {lamH lamA : ℝ}
    (hH : 0 ≤ lamH) (hA : 0 ≤ lamA) : probUnderGrid line maxG lamH lamA ≤ 1 := by
  unfold probUnderGrid
  calc ∑ i ∈ Finset.range (maxG + 1), ∑ j ∈ Finset.range (maxG + 1),
        (if ((i : ℝ) + (j : ℝ)) ≤ line then poissonPmf lamH i * poissonPmf lamA j else 0)
      ≤ ∑ i ∈ Finset.range (maxG + 1), ∑ j ∈ Finset.range (maxG + 1),
        poissonPmf lamH i * poissonPmf lamA j := by
        refine Finset.sum_le_sum (fun i _ => Finset.sum_le_sum (fun j _ => ?_))
        split
        · exact le_refl _
        · exact mul_nonneg (poissonPmf_nonneg hH i) (poissonPmf_nonneg hA j)
    _ = (∑ i ∈ Finset.range (maxG + 1), poissonPmf lamH i) *
        (∑ j ∈ Finset.range (maxG + 1), poissonPmf lamA j) := by
        rw [Finset.sum_mul_sum]
    _ ≤ 1 := by
        refine mul_le_one₀ (sum_poissonPmf_le_one hH _) ?_ (sum_poissonPmf_le_one hA _)
        exact Finset.sum_nonneg (fun j _ => poissonPmf_nonneg hA j)

theorem firstFailingCheck_char (cfg : StrategyConfig) (c : Candidate) (o : ℚ)
    (hsel : selectedOdds c = some o) (ho : ¬o ≤ 1) :
    firstFailingCheck cfg c =
      if checkPasses cfg c o 1 then
        if checkPasses cfg c o 2 then
          if checkPasses cfg c o 3 then
            if checkPasses cfg c o 4 then
              if checkPasses cfg c o 5 then none else some 5
            else some 4
          else some 3
        else some 2
      else some 1 := by
  unfold firstFailingCheck
  rw [hsel]
  dsimp only
  rw [if_neg ho]
  cases hb1 : checkPasses cfg c o 1 <;>
    cases hb2 : checkPasses cfg c o 2 <;>
      cases hb3 : checkPasses cfg c o 3 <;>
        cases hb4 : checkPasses cfg c o 4 <;>
          cases hb5 : checkPasses cfg c o 5 <;>
            simp [List.find?, hb1, hb2, hb3, hb4, hb5]

theorem evaluatedChecks_char (cfg : StrategyConfig) (c : Candidate) (o : ℚ)
    (hsel : selectedOdds c = some o) (ho : ¬o ≤ 1) :
    evaluatedChecks cfg c =
      if checkPasses cfg c o 1 ∧ checkPasses cfg c o 2 then
        if checkPasses cfg c o 3 then
          if checkPasses cfg c o 4 then [1, 2, 3, 4, 5] else [1, 2, 3, 4]
        else [1, 2, 3]
      else [1, 2] := by
  unfold evaluatedChecks
  rw [hsel]
  dsimp only
  rw [if_neg ho]
  by_cases h12 : checkPasses cfg c o 1 ∧ checkPasses cfg c o 2 <;>
    cases hb3 : checkPasses cfg c o 3 <;>
      cases hb4 : checkPasses cfg c o 4 <;>
        simp [h12, hb3, hb4]

theorem processCandidate_char (cfg : StrategyConfig) (c : Candidate) (o : ℚ)
    (hsel : selectedOdds c = some o) (ho : ¬o ≤ 1) :
    processCandidate cfg c =
      if checkPasses cfg c o 1 ∧ checkPasses cfg c o 2 then
        if checkPasses cfg c o 3 then
          if checkPasses cfg c o 4 then
            if checkPasses cfg c o 5 then
              CandidateResult.admitted (admittedRec cfg c o)
            else CandidateResult.rejected
          else CandidateResult.rejected
        else CandidateResult.rejected
      else CandidateResult.rejected := by
  unfold processCandidate
  rw [hsel]
  dsimp only
  rw [if_neg ho]
  cases hA : checkFiltroA cfg c.modelProb <;>
    cases hB : checkFiltroB c.steamSignal c.betOn <;>
      by_cases h3 : o < cfg.minOdds <;>
        cases hD : checkDisagreement cfg c.modelProb (implied_probability o) <;>
          by_cases h5 : expected_value c.modelProb o < cfg.minEvThreshold <;>
            simp [checkPasses, hA, hB, h3, hD, h5]

/-! ### Claim theorems -/

/-- C5: for every input pair of expected-goal rates (floored at 0.01
inside the function) and any line, the over-probability of the Poisson
grid equals 1 minus the explicit under-mass grid sum (so over and under
mass add to exactly 1), lies in `[0, 1]`, and a negative line yields
probability exactly 1. -/
theorem predict_totals_grid_props (line : ℝ) (maxG : ℕ) (homeXg awayXg : ℝ) :
    predict_totals1 line maxG homeXg awayXg
        = 1 - probUnderGrid line maxG (max homeXg (1/100)) (max awayXg (1/100))
    ∧ 0 ≤ predict_totals1 line maxG homeXg awayXg
    ∧ predict_totals1 line maxG homeXg awayXg ≤ 1
    ∧ (line < 0 → predict_totals1 line maxG homeXg awayXg = 1) := by
  have hH : (0 : ℝ) ≤ max homeXg (1/100) := le_trans (by norm_num) (le_max_right _ _)
  have hA : (0 : ℝ) ≤ max awayXg (1/100) := le_trans (by norm_num) (le_max_right _ _)
  refine ⟨rfl, ?_, ?_, ?_⟩
  · have := @probUnderGrid_le_one line maxG _ _ hH hA
    unfold predict_totals1
    linarith
  · have := @probUnderGrid_nonneg line maxG _ _ hH hA
    unfold predict_totals1
    linarith
  · intro hline
    have hzero : probUnderGrid line maxG (max homeXg (1/100)) (max awayXg (1/100)) = 0 := by
      unfold probUnderGrid
      refine Finset.sum_eq_zero (fun i _ => Finset.sum_eq_zero (fun j _ => ?_))
      rw [if_neg]
      intro hle
      have : (0 : ℝ) ≤ (i : ℝ) + (j : ℝ) := by positivity
      linarith
    unfold predict_totals1
    rw [hzero]
    norm_num

/-- Witness for C5 at a concrete negative line. -/
theorem predict_totals_grid_props_witness :
    predict_totals1 (-1) 10 1 1 = 1 ∧ 0 ≤ predict_totals1 (-1) 10 1 1 := by
  have h := predict_totals_grid_props (-1) 10 1 1
  exact ⟨h.2.2.2 (by norm_num), h.2.1⟩

/-- C4 (amended): `kelly_stake p odds` is exactly 0 whenever
`p * (odds - 1) ≤ 1 - p` (in particular whenever `odds ≤ 1`); for fixed
`odds > 1` it is monotone non-decreasing in `p`, and strictly increasing
in `p` on the positive-edge region `1 - p < p * (odds - 1)`. -/
theorem kelly_stake_zero_and_monotone (p p₁ p₂ odds : ℚ) :
    (p * (odds - 1) ≤ 1 - p → kelly_stake p odds = 0)
    ∧ (odds ≤ 1 → kelly_stake p odds = 0)
    ∧ (1 < odds → p₁ ≤ p₂ → kelly_stake p₁ odds ≤ kelly_stake p₂ odds)
    ∧ (1 < odds → p₁ < p₂ → 1 - p₁ < p₁ * (odds - 1) →
        kelly_stake p₁ odds < kelly_stake p₂ odds) := by
  refine ⟨?_, ?_, ?_, ?_⟩
  · intro hedge
    unfold kelly_stake
    by_cases hb : odds - 1 ≤ 0
    · rw [if_pos hb]
    · rw [if_neg hb]
      have hbpos : 0 < odds - 1 := lt_of_not_ge hb
      have hnum : (odds - 1) * p - (1 - p) ≤ 0 := by nlinarith
      have : ((odds - 1) * p - (1 - p)) / (odds - 1) ≤ 0 :=
        div_nonpos_of_nonpos_of_nonneg hnum (le_of_lt hbpos)
      simp [max_eq_right this]
  · intro hodds
    unfold kelly_stake
    rw [if_pos (by linarith)]
  · intro hodds hle
    unfold kelly_stake
    have hbpos : 0 < odds - 1 := by linarith
    rw [if_neg (not_le_of_gt hbpos), if_neg (not_le_of_gt hbpos)]
    refine max_le_max ?_ (le_refl 0)
    have hnum : (odds - 1) * p₁ - (1 - p₁) ≤ (odds - 1) * p₂ - (1 - p₂) := by nlinarith
    exact div_le_div_of_nonneg_right hnum (le_of_lt hbpos)
  · intro hodds hlt hedge
    unfold kelly_stake
    have hbpos : 0 < odds - 1 := by linarith
    rw [if_neg (not_le_of_gt hbpos), if_neg (not_le_of_gt hbpos)]
    have hnum1 : 0 < (odds - 1) * p₁ - (1 - p₁) := by nlinarith
    have hnum2 : (odds - 1) * p₁ - (1 - p₁) < (odds - 1) * p₂ - (1 - p₂) := by nlinarith
    have hf1 : 0 < ((odds - 1) * p₁ - (1 - p₁)) / (odds - 1) := div_pos hnum1 hbpos
    have hflt : ((odds - 1) * p₁ - (1 - p₁)) / (odds - 1)
        < ((odds - 1) * p₂ - (1 - p₂)) / (odds - 1) := by
      exact div_lt_div_of_pos_right hnum2 hbpos
    rw [max_eq_left (le_of_lt hf1), max_eq_left (by linarith)]
    exact hflt

/-- Witness for C4 at concrete probabilities and odds. -/
theorem kelly_stake_zero_and_monotone_witness :
    kelly_stake (1/2) (1/2) = 0 ∧ kelly_stake (4/5) 2 < kelly_stake (9/10) 2 := by
  have h1 := kelly_stake_zero_and_monotone (1/2) (4/5) (9/10) (1/2)
  have h2 := kelly_stake_zero_and_monotone (1/2) (4/5) (9/10) 2
  exact ⟨h1.2.1 (by norm_num), h2.2.2.2 (by norm_num) (by norm_num) (by norm_num)⟩

/-- C4 counterexample: at odds 2 (> 1) the stake is NOT strictly
increasing in `p` over the whole probability range: it is 0 at both
`p = 0.1` and `p = 0.2`. -/
theorem kelly_stake_strict_mono_cex :
    (1 : ℚ) < 2 ∧ (1/10 : ℚ) < 2/10
    ∧ kelly_stake (1/10) 2 = kelly_stake (2/10) 2
    ∧ ¬ kelly_stake (1/10) 2 < kelly_stake (2/10) 2 := by
  refine ⟨by norm_num, by norm_num, ?_, ?_⟩ <;> norm_num [kelly_stake]

/-- A candidate that fails the probability floor under the default
configuration (model probability 0.5 < 0.8) with usable closing odds. -/
def candidateFailsProbFloor : Candidate :=
  { matchIndex := 0
    modelProb := 1/2
    steamSignal := 0
    betOn := BetSide.over25
    closeOdds := some (19/10)
    openOdds := none
    league := "SerieA" }

/-- A candidate that passes the probability floor and the signal check
but fails the odds floor (closing odds 1.5 < 1.75). -/
def candidateFailsOddsFloor : Candidate :=
  { matchIndex := 1
    modelProb := 9/10
    steamSignal := 0
    betOn := BetSide.over25
    closeOdds := some (3/2)
    openOdds := none
    league := "SerieA" }

/-- C2 counterexample: under the default configuration, a candidate whose
FIRST failing check is 1 (the probability floor) is nonetheless evaluated
against check 2 (signal alignment), because the source computes
`passes_a` and `passes_b` before the joint rejection test. -/
theorem analyse_shortcircuit_cex :
    firstFailingCheck defaultConfig candidateFailsProbFloor = some 1
    ∧ (2 : ℕ) ∈ evaluatedChecks defaultConfig candidateFailsProbFloor := by
  constructor <;>
    norm_num [firstFailingCheck, evaluatedChecks, selectedOdds, candidateFailsProbFloor,
      defaultConfig, checkPasses, checkFiltroA, checkFiltroB, List.find?]

/-- C2 (amended): the admission pipeline evaluates the five checks in the
spec's order and short-circuits on the first failure, with one deviation:
checks 1 and 2 are always both evaluated before the joint rejection test.
Hence when the first failing check is `n`, no check beyond `max n 2` is
ever evaluated; when all checks pass, all five are evaluated; and a
candidate is admitted exactly when its odds are usable and no check
fails. -/
theorem analyse_shortcircuit_amended (cfg : StrategyConfig) (c : Candidate) :
    (∀ n k, firstFailingCheck cfg c = some n → k ∈ evaluatedChecks cfg c → k ≤ max n 2)
    ∧ (∀ o, selectedOdds c = some o → 1 < o → firstFailingCheck cfg c = none →
        evaluatedChecks cfg c = [1, 2, 3, 4, 5])
    ∧ ((∃ r, processCandidate cfg c = CandidateResult.admitted r) ↔
        (∃ o, selectedOdds c = some o ∧ 1 < o) ∧ firstFailingCheck cfg c = none) := by
  cases hsel : selectedOdds c with
  | none =>
    refine ⟨?_, ?_, ?_⟩
    · intro n k hfail
      simp [firstFailingCheck, hsel] at hfail
    · intro o ho
      cases ho
    · constructor
      · rintro ⟨r, hr⟩
        simp [processCandidate, hsel] at hr
      · rintro ⟨⟨o', ho', -⟩, -⟩
        cases ho'
  | some o =>
    by_cases ho : o ≤ 1
    · refine ⟨?_, ?_, ?_⟩
      · intro n k hfail
        simp [firstFailingCheck, hsel, ho] at hfail
      · intro o' ho' h1'
        cases ho'
        exact absurd h1' (not_lt.mpr ho)
      · constructor
        · rintro ⟨r, hr⟩
          simp [processCandidate, hsel, ho] at hr
        · rintro ⟨⟨o', ho', h1'⟩, -⟩
          cases ho'
          exact absurd h1' (not_lt.mpr ho)
    · have h1o : 1 < o := lt_of_not_ge ho
      rw [firstFailingCheck_char cfg c o hsel ho, evaluatedChecks_char cfg c o hsel ho,
        processCandidate_char cfg c o hsel ho]
      cases hb1 : checkPasses cfg c o 1 <;>
        cases hb2 : checkPasses cfg c o 2 <;>
          cases hb3 : checkPasses cfg c o 3 <;>
            cases hb4 : checkPasses cfg c o 4 <;>
              cases hb5 : checkPasses cfg c o 5 <;>
                refine ⟨fun n k hfail hk => ?_, fun o' ho' h1' hnone => ?_, ?_⟩ <;>
                  simp_all [h1o] <;> omega

/-- Witness for C2's amended statement at a concrete candidate whose
first failing check is the odds floor (check 3): the checks it was
evaluated against stop at `max 3 2 = 3`. -/
theorem analyse_shortcircuit_amended_witness :
    (3 : ℕ) ≤ max 3 2
    ∧ firstFailingCheck defaultConfig candidateFailsOddsFloor = some 3
    ∧ (3 : ℕ) ∈ evaluatedChecks defaultConfig candidateFailsOddsFloor := by
  have hfail : firstFailingCheck defaultConfig candidateFailsOddsFloor = some 3 := by
    norm_num [firstFailingCheck, selectedOdds, candidateFailsOddsFloor, defaultConfig,
      checkPasses, checkFiltroA, checkFiltroB, List.find?]
  have hmem : (3 : ℕ) ∈ evaluatedChecks defaultConfig candidateFailsOddsFloor := by
    norm_num [evaluatedChecks, selectedOdds, candidateFailsOddsFloor, defaultConfig,
      checkPasses, checkFiltroA, checkFiltroB]
  exact ⟨(analyse_shortcircuit_amended defaultConfig candidateFailsOddsFloor).1 3 3
    hfail hmem, hfail, hmem⟩

/-- A candidate with no usable odds at all (both columns missing/NaN). -/
def candidateNoOdds : Candidate :=
  { matchIndex := 7
    modelProb := 1/2
    steamSignal := 0
    betOn := BetSide.over25
    closeOdds := none
    openOdds := none
    league := "SerieA" }

/-- C10: per-candidate odds selection policy of `analyse`: the closing
odds are used whenever present and not NaN; the opening odds are used
only when the closing odds are unavailable; the candidate is skipped
(no recommendation emitted) when no odds are usable or the selected odds
are at most 1; and any admitted recommendation carries exactly the
selected odds (which are then above 1). -/
theorem odds_selection_policy (cfg : StrategyConfig) (c : Candidate) :
    (∀ o, c.closeOdds = some o → selectedOdds c = some o)
    ∧ (c.closeOdds = none → selectedOdds c = c.openOdds)
    ∧ (selectedOdds c = none → processCandidate cfg c = CandidateResult.skippedOdds)
    ∧ (∀ o, selectedOdds c = some o → o ≤ 1 →
        processCandidate cfg c = CandidateResult.skippedOdds)
    ∧ (∀ r, processCandidate cfg c = CandidateResult.admitted r →
        ∃ o, selectedOdds c = some o ∧ 1 < o ∧ r.marketOdds = o) := by
  refine ⟨?_, ?_, ?_, ?_, ?_⟩
  · intro o hc
    simp [selectedOdds, hc]
  · intro hc
    simp [selectedOdds, hc]
  · intro hsel
    simp [processCandidate, hsel]
  · intro o hsel ho
    simp [processCandidate, hsel, ho]
  · intro r hr
    cases hsel : selectedOdds c with
    | none => simp [processCandidate, hsel] at hr
    | some o =>
      by_cases ho : o ≤ 1
      · simp [processCandidate, hsel, ho] at hr
      · rw [processCandidate_char cfg c o hsel ho] at hr
        refine ⟨o, rfl, lt_of_not_ge ho, ?_⟩
        repeat' split at hr
        all_goals cases hr
        rfl

/-- Witness for C10: a candidate with no odds columns is skipped. -/
theorem odds_selection_policy_witness :
    selectedOdds candidateNoOdds = none
    ∧ processCandidate defaultConfig candidateNoOdds = CandidateResult.skippedOdds := by
  have h := odds_selection_policy defaultConfig candidateNoOdds
  exact ⟨rfl, h.2.2.1 rfl⟩

/-- A sample admitted-bet record for concrete scenarios; only the fields
the pairing and bankroll code read are varied. -/
def sampleRec (idx : ℤ) (prob odds stake : ℚ) (lg : String) : BetRecommendation :=
  { matchIndex := idx
    betOn := BetSide.over25
    modelProb := prob
    impliedProbOpen := 0
    impliedProbClose := 0
    edge := 0
    ev := 0
    kellyFraction := 0
    recommendedStake := stake
    marketOdds := odds
    clv := 0
    steamSignal := 0
    passesFiltroA := true
    passesFiltroB := true
    league := lg }

/-- C6 (code bug): with cross-league preference on (the default
configuration), pairing the 4 admitted bets with probabilities
0.90, 0.85, 0.84, 0.82 and leagues [SerieA, SerieA, Premier, SerieA]
produces only ONE double — pairing match 1 with match 3 — instead of
floor(4/2) = 2: the loop pops match 4 as the lowest entry, then
overwrites it with the cross-league partner (match 3) without
re-inserting it, so match 4 is silently discarded and match 2 is left
alone.  The source drops an admitted bet wholesale, which contradicts
the documented balanced-pairing intent. -/
theorem pair_doubles_drops_entry :
    (pair_doubles defaultConfig
        [sampleRec 1 (9/10) 2 0 "SerieA", sampleRec 2 (85/100) 2 0 "SerieA",
          sampleRec 3 (84/100) 2 0 "Premier", sampleRec 4 (82/100) 2 0 "SerieA"]).map
        (fun d => (d.leg1.matchIndex, d.leg2.matchIndex)) = [(1, 3)]
    ∧ (4 : ℕ) / 2 = 2 := by
  constructor
  · have hPS : ("Premier" = "SerieA") = False := by simp
    have hSP : ("SerieA" = "Premier") = False := by simp
    have hSS : ("SerieA" = "SerieA") = True := by simp
    norm_num [pair_doubles, pairLoop, splitLast, extractLastOtherLeague, mkDouble,
      defaultConfig, sampleRec, List.insertionSort, List.orderedInsert, hPS, hSP, hSS]
  · rfl

/-- The stake each settlement wagers in `simStep`. -/
theorem simStep_ledger_le (actuals : ℤ → Option ℕ) (st : SimState)
    (rec : BetRecommendation) :
    (simStep actuals st rec).ledger.length ≤ st.ledger.length + 1 := by
  unfold simStep
  cases actuals rec.matchIndex <;> simp

theorem simRun_ledger_le (cfg : StrategyConfig) (actuals : ℤ → Option ℕ) :
    ∀ (recs : List BetRecommendation) (st : SimState),
      (simRun cfg actuals st recs).ledger.length ≤ st.ledger.length + recs.length := by
  intro recs
  induction recs with
  | nil =>
    intro st
    simp [simRun]
  | cons rec rest ih =>
    intro st
    unfold simRun
    split
    · simp
    · calc (simRun cfg actuals (simStep actuals st rec) rest).ledger.length
          ≤ (simStep actuals st rec).ledger.length + rest.length := ih _
        _ ≤ st.ledger.length + 1 + rest.length :=
            Nat.add_le_add_right (simStep_ledger_le actuals st rec) _
        _ = st.ledger.length + (rec :: rest).length := by
            simp [List.length_cons]
            omega

/-- C7: the bankroll simulation as a state machine: (1) the ledger never
outgrows the input list; (2) once the consecutive-loss counter has
reached the stop-loss threshold, running any further bets leaves the
state untouched (no ledger entry is ever appended after the stop); (3) a
winning settlement resets the counter to 0; (4) a bet with no realized
outcome is skipped leaving bankroll, counter and ledger unchanged. -/
theorem simulate_bankroll_state_machine (cfg : StrategyConfig)
    (recs rest : List BetRecommendation) (actuals : ℤ → Option ℕ)
    (st : SimState) (rec : BetRecommendation) :
    (simulate_bankroll cfg recs actuals).ledger.length ≤ recs.length
    ∧ (cfg.stopLossConsecutive ≤ st.consecutiveLosses →
        simRun cfg actuals st rest = st)
    ∧ (∀ a, actuals rec.matchIndex = some a →
        ((rec.betOn = BetSide.over25 ∧ a = 1) ∨ (rec.betOn = BetSide.under25 ∧ a = 0)) →
        (simStep actuals st rec).consecutiveLosses = 0)
    ∧ (actuals rec.matchIndex = none → simStep actuals st rec = st) := by
  refine ⟨?_, ?_, ?_, ?_⟩
  · have h := simRun_ledger_le cfg actuals recs
      { bankroll := cfg.initialBankroll, consecutiveLosses := 0, ledger := [] }
    simpa [simulate_bankroll] using h
  · intro hstop
    cases rest with
    | nil => rfl
    | cons r l =>
      unfold simRun
      rw [if_pos hstop]
  · intro a ha hwin
    unfold simStep
    rw [ha]
    dsimp only
    rw [if_pos hwin]
  · intro ha
    unfold simStep
    rw [ha]

/-- Witness for C7 at concrete states, bets and outcome maps. -/
theorem simulate_bankroll_state_machine_witness :
    (simulate_bankroll defaultConfig [] (fun _ => none)).ledger.length ≤ 0
    ∧ simRun defaultConfig (fun _ => none)
        { bankroll := 1000, consecutiveLosses := 5, ledger := [] }
        [sampleRec 1 1 2 0 "SerieA"] =
        { bankroll := 1000, consecutiveLosses := 5, ledger := [] }
    ∧ (simStep (fun _ => some 1)
        { bankroll := 1000, consecutiveLosses := 3, ledger := [] }
        (sampleRec 1 1 2 0 "SerieA")).consecutiveLosses = 0
    ∧ simStep (fun _ => none)
        { bankroll := 1000, consecutiveLosses := 3, ledger := [] }
        (sampleRec 1 1 2 0 "SerieA") =
        { bankroll := 1000, consecutiveLosses := 3, ledger := [] } := by
  have h1 := simulate_bankroll_state_machine defaultConfig []
    [sampleRec 1 1 2 0 "SerieA"] (fun _ => none)
    { bankroll := 1000, consecutiveLosses := 5, ledger := [] } (sampleRec 1 1 2 0 "SerieA")
  have h2 := simulate_bankroll_state_machine defaultConfig [] [] (fun _ => some 1)
    { bankroll := 1000, consecutiveLosses := 3, ledger := [] } (sampleRec 1 1 2 0 "SerieA")
  have h3 := simulate_bankroll_state_machine defaultConfig [] [] (fun _ => none)
    { bankroll := 1000, consecutiveLosses := 3, ledger := [] } (sampleRec 1 1 2 0 "SerieA")
  exact ⟨h1.1, h1.2.1 (Nat.le_refl 5), h2.2.2.1 1 rfl (Or.inl ⟨rfl, rfl⟩),
    h3.2.2.2 rfl⟩

/-- Five consecutive losing bets, each staking 3% of the running
bankroll, followed by a sixth bet that must never be settled. -/
def losingBets : List BetRecommendation :=
  [sampleRec 1 (9/10) 2 (3/100) "SerieA", sampleRec 2 (9/10) 2 (3/100) "SerieA",
    sampleRec 3 (9/10) 2 (3/100) "SerieA", sampleRec 4 (9/10) 2 (3/100) "SerieA",
    sampleRec 5 (9/10) 2 (3/100) "SerieA", sampleRec 6 (9/10) 2 (3/100) "SerieA"]

/-- C8 counterexample: with initial bankroll 1000, stop-loss 5, and five
consecutive losing bets each staked at exactly 3% of the running
bankroll, the final bankroll EQUALS 1000·0.97⁵ — it is not strictly
greater than it, as the claim asserts. -/
theorem simulate_bankroll_five_losses_cex :
    (simulate_bankroll defaultConfig losingBets (fun _ => some 0)).bankroll
        = 1000 * (97/100)^5
    ∧ ¬ 1000 * ((97:ℚ)/100)^5 <
        (simulate_bankroll defaultConfig losingBets (fun _ => some 0)).bankroll := by
  have h : (simulate_bankroll defaultConfig losingBets (fun _ => some 0)).bankroll
      = 1000 * (97/100)^5 := by
    have hbs : (BetSide.over25 = BetSide.under25) = False :=
      eq_false (by intro hco; cases hco)
    norm_num [simulate_bankroll, simRun, simStep, losingBets, sampleRec, defaultConfig, hbs]
  refine ⟨h, ?_⟩
  rw [h]
  exact lt_irrefl _

/-- C8 (amended): in the same scenario the simulation halts exactly after
the fifth loss: the ledger holds exactly 5 entries even though a sixth
bet exists, the loss counter stands at the threshold 5, and the final
bankroll is exactly 1000·0.97⁵, strictly below 1000. -/
theorem simulate_bankroll_five_losses_amended :
    (simulate_bankroll defaultConfig losingBets (fun _ => some 0)).ledger.length = 5
    ∧ (simulate_bankroll defaultConfig losingBets (fun _ => some 0)).consecutiveLosses = 5
    ∧ (simulate_bankroll defaultConfig losingBets (fun _ => some 0)).bankroll
        = 1000 * (97/100)^5
    ∧ (simulate_bankroll defaultConfig losingBets (fun _ => some 0)).bankroll < 1000 := by
  have hbs : (BetSide.over25 = BetSide.under25) = False :=
    eq_false (by intro hco; cases hco)
  refine ⟨?_, ?_, ?_, ?_⟩ <;>
    norm_num [simulate_bankroll, simRun, simStep, losingBets, sampleRec, defaultConfig, hbs]

/-- A helper bound: `np.clip(x, 0.01, 0.99)` always lands in
`[0.01, 0.99]`. -/
theorem clip01_mem (x : ℝ) : 1/100 ≤ clip01 x ∧ clip01 x ≤ 99/100 := by
  unfold clip01
  constructor
  · exact le_min (le_trans (by norm_num) (le_max_right x (1/100))) (by norm_num)
  · exact min_le_right _ _

/-- C9: on a fitted model, every output row of `predict_proba` has its
calibrated over-probability clipped into `[0.01, 0.99]`, and the
under-probability is exactly 1 minus the over-probability (hence lies in
`[0.01, 0.99]` as well). -/
theorem predict_proba_clipped (m : QuantModel) (t : MatchTable)
    (rows : List ProbaRow) (r : ProbaRow)
    (hok : predict_proba m t = Except.ok rows) (hr : r ∈ rows) :
    1/100 ≤ r.probOver25 ∧ r.probOver25 ≤ 99/100
    ∧ r.probUnder25 = 1 - r.probOver25
    ∧ 1/100 ≤ r.probUnder25 ∧ r.probUnder25 ≤ 99/100 := by
  unfold predict_proba at hok
  by_cases hf : m.isFitted
  · rw [if_pos hf] at hok
    injection hok with hrows
    subst hrows
    unfold predictProbaRows at hr
    obtain ⟨row, -, hrow⟩ := List.mem_map.mp hr
    have hover : r.probOver25 = clip01 (m.params.calibrator (m.params.metaModel
        (metaFeatureRow t
          (predict_totals1 m.ouLine m.poissonMax (m.params.homeModel row.features)
            (m.params.awayModel row.features))
          (predict_totals1 m.ouLine m.poissonMax ((baselineAvg t : ℚ) : ℝ)
            ((baselineAvg t : ℚ) : ℝ)) row))) := by
      rw [← hrow]
    have hunder : r.probUnder25 = 1 - r.probOver25 := by
      rw [← hrow]
    have hb := clip01_mem (m.params.calibrator (m.params.metaModel
      (metaFeatureRow t
        (predict_totals1 m.ouLine m.poissonMax (m.params.homeModel row.features)
          (m.params.awayModel row.features))
        (predict_totals1 m.ouLine m.poissonMax ((baselineAvg t : ℚ) : ℝ)
          ((baselineAvg t : ℚ) : ℝ)) row)))
    rw [hover] at *
    refine ⟨hb.1, hb.2, hunder, ?_, ?_⟩ <;> rw [hunder] <;> [linarith [hb.2]; linarith [hb.1]]
  · rw [if_neg hf] at hok
    cases hok

/-- A never-fitted model holding default (constant) estimator stand-ins
and the default configuration scalars. -/
noncomputable def baseModel : QuantModel := { params := default }

/-- A fitted model whose abstract estimators are the default constants. -/
noncomputable def fittedModel : QuantModel := { isFitted := true, params := default }

/-- One synthetic feature-engineered row with a given total xG and
binary outcome; all other columns are zero. -/
noncomputable def sampleRow (xg : ℚ) (lbl : Bool) : MatchRow :=
  { features := []
    totalXg := xg
    marketMomentumOver := 0
    steamSignal := 0
    homeGoals := 0
    awayGoals := 0
    over25 := lbl }

/-- A single-row table for forward-pass witnesses. -/
noncomputable def oneRowTable : MatchTable :=
  { rows := [sampleRow (13/5) true], hasTotalXg := true, hasMarket := false }

/-- Witness for C9: the single output row of a concrete fitted model on
a one-row table satisfies the clip bounds and the complement relation. -/
theorem predict_proba_clipped_witness :
    1/100 ≤ ((predictProbaRows fittedModel oneRowTable).headI).probOver25
    ∧ ((predictProbaRows fittedModel oneRowTable).headI).probUnder25
        = 1 - ((predictProbaRows fittedModel oneRowTable).headI).probOver25 := by
  have hok : predict_proba fittedModel oneRowTable
      = Except.ok (predictProbaRows fittedModel oneRowTable) := by
    unfold predict_proba
    rw [if_pos (show fittedModel.isFitted = true from rfl)]
  have hmem : (predictProbaRows fittedModel oneRowTable).headI ∈
      predictProbaRows fittedModel oneRowTable := by
    simp [predictProbaRows, oneRowTable]
  have h := predict_proba_clipped fittedModel oneRowTable _ _ hok hmem
  exact ⟨h.1, h.2.2.1⟩

/-- The empty table (no samples): sklearn `TimeSeriesSplit` refuses it. -/
noncomputable def emptyTable : MatchTable := { rows := [], hasTotalXg := true, hasMarket := false }

/-- Default learners: the external estimators replaced by constants. -/
noncomputable def defaultLearners : Learners := default

/-- Twelve rows with alternating outcome labels and constant total xG
2.6: every `TimeSeriesSplit` fold of it has both classes on both sides. -/
noncomputable def table12 : MatchTable :=
  { rows := [sampleRow (13/5) true, sampleRow (13/5) false, sampleRow (13/5) true,
      sampleRow (13/5) false, sampleRow (13/5) true, sampleRow (13/5) false,
      sampleRow (13/5) true, sampleRow (13/5) false, sampleRow (13/5) true,
      sampleRow (13/5) false, sampleRow (13/5) true, sampleRow (13/5) false]
    hasTotalXg := true
    hasMarket := false }

/-- Same as `table12` except row 2 — a fold-0 TEST row — carries total
xG 4 instead of 2.6.  The fold-0 training prefix (rows 0 and 1) is
identical to `table12`'s. -/
noncomputable def table12B : MatchTable :=
  { rows := [sampleRow (13/5) true, sampleRow (13/5) false, sampleRow 4 true,
      sampleRow (13/5) false, sampleRow (13/5) true, sampleRow (13/5) false,
      sampleRow (13/5) true, sampleRow (13/5) false, sampleRow (13/5) true,
      sampleRow (13/5) false, sampleRow (13/5) true, sampleRow (13/5) false]
    hasTotalXg := true
    hasMarket := false }

/-- C3 (amended): `predict_proba` and `get_feature_importance` fail with
the distinct "model not ready" error whenever the model is not fitted,
but `evaluate` performs no fitted-state check at all: any error it
surfaces is a data-shape error, never the "not fitted" one. -/
theorem fit_guard_amended (L : Learners) (m : QuantModel) (t : MatchTable) :
    (m.isFitted = false → predict_proba m t = Except.error ModelError.notFitted)
    ∧ (m.isFitted = false →
        get_feature_importance m = Except.error ModelError.notFitted)
    ∧ (∀ e, evaluate L m t = Except.error e → e = ModelError.dataError) := by
  refine ⟨?_, ?_, ?_⟩
  · intro hf
    unfold predict_proba
    rw [if_neg (by simp [hf])]
  · intro hf
    unfold get_feature_importance
    rw [if_neg (by simp [hf])]
  · intro e he
    unfold evaluate at he
    split at he
    · injection he with h
      exact h.symm
    · split at he
      · injection he with h
        exact h.symm
      · cases he

/-- Witness for C3's amended statement on a concrete unfitted model. -/
theorem fit_guard_amended_witness :
    baseModel.isFitted = false
    ∧ predict_proba baseModel table12 = Except.error ModelError.notFitted
    ∧ get_feature_importance baseModel = Except.error ModelError.notFitted
    ∧ ModelError.dataError = ModelError.dataError := by
  have h := fit_guard_amended defaultLearners baseModel table12
  have h2 := fit_guard_amended defaultLearners baseModel emptyTable
  refine ⟨rfl, h.1 rfl, h.2.1 rfl, h2.2.2 ModelError.dataError ?_⟩
  unfold evaluate
  rw [if_pos]
  simp [emptyTable, baseModel]

/-- C3 counterexample: on a concrete 12-row table, `evaluate` SUCCEEDS on
a never-fitted model (it refits everything per fold and never consults
the fitted flag), while `predict_proba` on the same model and data fails
with the distinct "not fitted" error — so "evaluate() fails if the model
is not yet fit" is false on the code. -/
theorem evaluate_runs_unfitted_cex :
    baseModel.isFitted = false
    ∧ succeeded (evaluate defaultLearners baseModel table12) = true
    ∧ predict_proba baseModel table12 = Except.error ModelError.notFitted := by
  refine ⟨rfl, ?_, ?_⟩
  · unfold succeeded evaluate
    rw [if_neg (by decide), if_neg (by decide)]
  · unfold predict_proba
    rw [if_neg (by decide)]

/-- C1 (code bug): inside `evaluate`, the Model C baseline for the TEST
rows of a fold is computed from the test rows' own mean total xG
(`self._poisson_baseline(df.iloc[test_idx])`), not from the fold's
training prefix.  Concretely, for fold 0 of a 12-row table (training
prefix rows 0-1, test rows 2-3): two tables identical on the training
prefix — indeed with identical sliced training tables, so the
training-row baseline is unchanged — yield different test-row baseline
lambdas when one test row's total xG changes, and that lambda is exactly
what `evalTestBaseline` feeds into the Poisson grid for every test row. -/
theorem evaluate_test_baseline_leak :
    foldTrainIdx 12 5 0 = [0, 1]
    ∧ foldTestIdx 12 5 0 = [2, 3]
    ∧ trainFoldTable baseModel table12B 0 = trainFoldTable baseModel table12 0
    ∧ baselineAvg (testFoldTable baseModel table12 0) = 13/10
    ∧ baselineAvg (testFoldTable baseModel table12B 0) = 33/20
    ∧ baselineAvg (testFoldTable baseModel table12 0)
        ≠ baselineAvg (testFoldTable baseModel table12B 0)
    ∧ evalTestBaseline baseModel table12B 0 =
        (testFoldTable baseModel table12B 0).rows.map
          (fun _ => predict_totals1 baseModel.ouLine baseModel.poissonMax
            ((baselineAvg (testFoldTable baseModel table12B 0) : ℚ) : ℝ)
            ((baselineAvg (testFoldTable baseModel table12B 0) : ℚ) : ℝ)) := by
  have htr : foldTrainIdx 12 5 0 = [0, 1] := by decide
  have hte : foldTestIdx 12 5 0 = [2, 3] := by decide
  have havgA : baselineAvg (testFoldTable baseModel table12 0) = 13/10 := by
    norm_num [baselineAvg, testFoldTable, tableSlice, foldTestIdx, foldTestSize,
      foldTestStart, table12, sampleRow, baseModel, List.range_succ]
  have havgB : baselineAvg (testFoldTable baseModel table12B 0) = 33/20 := by
    norm_num [baselineAvg, testFoldTable, tableSlice, foldTestIdx, foldTestSize,
      foldTestStart, table12B, sampleRow, baseModel, List.range_succ]
  refine ⟨htr, hte, ?_, havgA, havgB, ?_, rfl⟩
  · rfl
  · rw [havgA, havgB]
    norm_num

end Autonord
